import Mathlib

/-!
# Verification of the task-manager web app

Shallow embedding of the backend task model / controller
(`models/Task.js`, `controllers/taskController.js`), the client task-list
handlers (`frontend/src/App.js`), and — where the repository ships only a
description of the code — definitions modelled from the spec.

Machine integers do not occur; identifiers and timestamps are `Nat`,
strings are Lean `String`.
-/

namespace TaskApp

/-- Enum `status` of `taskSchema`: `todo`, `in-progress`, `completed`. -/
inductive Status where
  | todo
  | inProgress
  | completed
  deriving DecidableEq, Repr

/-- Enum `priority` of `taskSchema`: `low`, `medium`, `high`. -/
inductive Priority where
  | low
  | medium
  | high
  deriving DecidableEq, Repr

/-- A persisted task document (`models/Task.js`).  `createdAt` comes from
`timestamps: true`; it is the sort key of `getTasks`.  (`updatedAt` is not
used by any operation and is not modelled.) -/
structure Task where
  _id : Nat
  title : String
  description : Option String
  status : Status
  priority : Priority
  dueDate : Option Nat
  user : Nat
  createdAt : Nat
  deriving DecidableEq, Repr

/-- The request body of a create/update call, after destructuring
`{ title, description, status, priority, dueDate }` as in `createTask`.
Absent fields are `none`. -/
structure TaskInput where
  title : Option String
  description : Option String
  status : Option Status
  priority : Option Priority
  dueDate : Option Nat
  deriving DecidableEq, Repr

/-- The task store plus the bookkeeping Mongo supplies: a fresh `_id`
counter and the current clock used for `createdAt`. -/
structure Db where
  tasks : List Task
  nextId : Nat
  now : Nat
  deriving Repr

/-- The `trim: true` setter of the schema (JS `String.prototype.trim`):
strip leading and trailing whitespace. -/
def trim (s : String) : String :=
  String.mk ((s.data.dropWhile Char.isWhitespace).reverse.dropWhile
    Char.isWhitespace).reverse

/-- Title validator of `taskSchema`: `required` (the field must be
present and — per checkRequired on a String path, which demands nonzero
length — nonempty) and `maxlength: 100`, both checked on the trimmed
value, since the `trim: true` setter runs first. -/
def validTitle : Option String → Bool
  | none => false
  | some s => 0 < (trim s).length && (trim s).length ≤ 100

/-- Description validator of `taskSchema`: optional, `maxlength: 500`,
checked after `trim: true` is applied. -/
def validDescription : Option String → Bool
  | none => true
  | some s => (trim s).length ≤ 500

/-- Schema validation run by `task.save()` on a new document. -/
def validateCreate (inp : TaskInput) : Bool :=
  validTitle inp.title && validDescription inp.description

/-- The document built by `new Task({...})` once validation passed:
defaults `status: todo` and `priority: medium` fill absent fields,
`trim: true` is applied to the strings, `user` is `req.user.id`, and
Mongo assigns `_id` and `createdAt`. -/
def mkTask (db : Db) (uid : Nat) (inp : TaskInput) : Task :=
  { _id := db.nextId
    title := trim (inp.title.getD "")
    description := inp.description.map trim
    status := inp.status.getD Status.todo
    priority := inp.priority.getD Priority.medium
    dueDate := inp.dueDate
    user := uid
    createdAt := db.now }

/-- Controller `createTask` (`taskController.js`): build the document from the body
and `req.user.id`, then `task.save()`; a validation failure throws and
nothing is persisted, otherwise the saved task is returned. -/
def createTask (db : Db) (uid : Nat) (inp : TaskInput) :
    Except Unit Task × Db :=
  if validateCreate inp then
    let t := mkTask db uid inp
    (Except.ok t,
      { tasks := db.tasks ++ [t], nextId := db.nextId + 1, now := db.now + 1 })
  else
    (Except.error (), db)

/-- The sort order of `.sort({ createdAt: -1 })`: newest first. -/
def newerFirst (a b : Task) : Prop := b.createdAt ≤ a.createdAt

instance : DecidableRel newerFirst := fun _ _ => Nat.decLe _ _

instance : IsTotal Task newerFirst :=
  ⟨fun a b => (Nat.le_total b.createdAt a.createdAt).imp id id⟩

instance : IsTrans Task newerFirst :=
  ⟨fun _ _ _ hab hbc => Nat.le_trans hbc hab⟩

/-- Controller `getTasks` (`taskController.js`):
`Task.find({ user: req.user.id }).sort({ createdAt: -1 })`. -/
def getTasks (db : Db) (uid : Nat) : List Task :=
  List.insertionSort newerFirst (db.tasks.filter (fun t => t.user == uid))

/-- Update-path validation (`runValidators: true`): the update validators
run on each path supplied in the body — `required` plus `maxlength` on a
supplied title (both on the trimmed value), `maxlength` on a supplied
description; absent paths are not validated. -/
def validUpdate (inp : TaskInput) : Bool :=
  (match inp.title with
   | none => true
   | some s => 0 < (trim s).length && (trim s).length ≤ 100) &&
  (match inp.description with
   | none => true
   | some s => (trim s).length ≤ 500)

/-- Semantics of the update object: supplied fields overwrite,
absent fields are kept; `trim: true` applies to the strings. -/
def applyUpdate (t : Task) (inp : TaskInput) : Task :=
  { t with
    title := (inp.title.map trim).getD t.title
    description :=
      match inp.description with
      | none => t.description
      | some d => some (trim d)
    status := inp.status.getD t.status
    priority := inp.priority.getD t.priority
    dueDate :=
      match inp.dueDate with
      | none => t.dueDate
      | some d => some d }

/-- Store call `Task.findOneAndUpdate({ _id, user }, body, { new: true })`: update the
first document matching both `_id` and `user` in place, return it
(post-update, per `new: true`), or `none` when nothing matches. -/
def findOneAndUpdate (ts : List Task) (uid tid : Nat) (inp : TaskInput) :
    Option Task × List Task :=
  match ts with
  | [] => (none, [])
  | t :: rest =>
    if t._id == tid && t.user == uid then
      (some (applyUpdate t inp), applyUpdate t inp :: rest)
    else
      let p := findOneAndUpdate rest uid tid inp
      (p.1, t :: p.2)

/-- Outcome of the `updateTask` controller body. -/
inductive UpdateResult where
  | ok (t : Task)
  | notFound
  | validationError
  deriving DecidableEq, Repr

/-- Controller `updateTask` (`taskController.js`): `findOneAndUpdate`
with `runValidators: true` casts and runs the update validators
client-side before the query is issued, so an invalid supplied field
throws (caught as 400) whether or not any task matches; only then does
the query run: `null` means 404, otherwise the updated task is
returned. -/
def updateTask (db : Db) (uid tid : Nat) (inp : TaskInput) :
    UpdateResult × Db :=
  if validUpdate inp then
    match findOneAndUpdate db.tasks uid tid inp with
    | (none, _) => (UpdateResult.notFound, db)
    | (some t, ts') => (UpdateResult.ok t, { db with tasks := ts' })
  else (UpdateResult.validationError, db)

/-- Store call `Task.findOneAndDelete({ _id, user })`: remove the first document
matching both `_id` and `user`, returning it, or `none` when nothing
matches. -/
def findOneAndDelete (ts : List Task) (uid tid : Nat) :
    Option Task × List Task :=
  match ts with
  | [] => (none, [])
  | t :: rest =>
    if t._id == tid && t.user == uid then
      (some t, rest)
    else
      let p := findOneAndDelete rest uid tid
      (p.1, t :: p.2)

/-- Controller `deleteTask` (`taskController.js`): `findOneAndDelete`; `null` means
404, otherwise the record is removed. -/
def deleteTask (db : Db) (uid tid : Nat) : Option Task × Db :=
  match findOneAndDelete db.tasks uid tid with
  | (none, _) => (none, db)
  | (some t, ts') => (some t, { db with tasks := ts' })

/-! ## HTTP status layer (`taskController.js` handlers)

Each handler awaits a store operation inside `try { ... } catch`.  The
`fault` flag injects a rejected promise from the store (a non-validation
server-side failure, e.g. a lost connection): `fault = true` means the
awaited call threw such an error and control jumps to the `catch` block. -/

/-- Handler status of `getTasks`: `res.json(tasks)` (200) on success;
`catch` answers `res.status(500)` (message `Server error`). -/
def getTasksStatus (fault : Bool) : Nat :=
  if fault then 500 else 200

/-- Handler status of `createTask`: 201 on success; the single `catch` answers
`res.status(400)` (message `Error creating task`) for every thrown error,
validation and server failures alike. -/
def createTaskStatus (db : Db) (uid : Nat) (inp : TaskInput)
    (fault : Bool) : Nat :=
  if fault then 400
  else
    match (createTask db uid inp).1 with
    | Except.ok _ => 201
    | Except.error _ => 400

/-- Handler status of `updateTask`: a `null` task answers 404;
`res.json(task)` (200) on success; the `catch` answers `res.status(400)`
(message `Error updating task`) for every thrown error, validation and server
failures alike. -/
def updateTaskStatus (db : Db) (uid tid : Nat) (inp : TaskInput)
    (fault : Bool) : Nat :=
  if fault then 400
  else
    match (updateTask db uid tid inp).1 with
    | UpdateResult.ok _ => 200
    | UpdateResult.notFound => 404
    | UpdateResult.validationError => 400

/-- Handler status of `deleteTask`: a `null` task answers 404;
200 on success; `catch` answers `res.status(500)` (message `Server error`). -/
def deleteTaskStatus (db : Db) (uid tid : Nat) (fault : Bool) : Nat :=
  if fault then 500
  else
    match (deleteTask db uid tid).1 with
    | some _ => 200
    | none => 404

/-! ## Authentication service

`backend/controllers/authController.js`, `backend/models/User.js` and
`backend/middleware/authMiddleware.js` are not among the repository
source files (the README only lists them), so this part is modelled from
the spec (§4.1, §7). -/

/-- Modelled from the spec: user record of the credential store
(`models/User.js` is missing from the sources): identifier, unique email,
hashed password. -/
structure User where
  _id : Nat
  email : String
  passwordHash : String
  deriving DecidableEq, Repr

/-- Modelled from the spec: the salted password hash stored by `register`
(`authController.js` is missing from the sources).  The hash function is
abstracted as salt-tagged pairing; no claim depends on its shape. -/
def hashPassword (salt password : String) : String :=
  salt ++ ":" ++ password

/-- The credential store plus the id counter and the salt in use. -/
structure UserDb where
  users : List User
  nextId : Nat
  salt : String
  deriving Repr

/-- Modelled from the spec: `register(email, password)` fails if email
already in use; stores a salted hash of password; returns a signed token
(modelled by the identity of the new user). -/
def register (udb : UserDb) (email password : String) :
    Except Unit (Nat × UserDb) :=
  if udb.users.any (fun u => u.email == email) then
    Except.error ()
  else
    Except.ok (udb.nextId,
      { udb with
        users := udb.users ++
          [{ _id := udb.nextId, email := email,
             passwordHash := hashPassword udb.salt password }]
        nextId := udb.nextId + 1 })

/-- A bearer token as the middleware sees it: payload (user id, expiry)
and signature.  `none` models a missing or malformed token. -/
structure Token where
  uid : Nat
  exp : Nat
  sig : Nat
  deriving DecidableEq, Repr

/-- Modelled from the spec: the signature a token must carry to be
accepted, as a function of the signing secret and the payload. -/
def sign (secret uid exp : Nat) : Nat :=
  secret + 2 * uid + 3 * exp

/-- Modelled from the spec: `verify(token)` fails with AuthError if token
missing, malformed, expired, or signature invalid; otherwise yields the
identity of the owning user. -/
def verify (secret now : Nat) : Option Token → Except Unit Nat
  | none => Except.error ()
  | some tk =>
    if tk.sig == sign secret tk.uid tk.exp && now < tk.exp then
      Except.ok tk.uid
    else
      Except.error ()

/-- Modelled from the spec: the authentication gate answers 401 on
AuthError, and otherwise lets the request through (modelled as the status
the guarded handler would produce). -/
def verifyStatus (secret now : Nat) (tk : Option Token)
    (handlerStatus : Nat) : Nat :=
  match verify secret now tk with
  | Except.error _ => 401
  | Except.ok _ => handlerStatus

/-! ## Client task-list handlers (`frontend/src/App.js`) -/

/-- Client `handleCreateTask`: on success, `setTasks([response.data, ...tasks])`. -/
def handleCreateTask (tasks : List Task) (responseData : Task) :
    List Task :=
  responseData :: tasks

/-- Client `handleUpdateTask`: on success,
`setTasks(tasks.map(task => task._id === taskId ? response.data : task))`. -/
def handleUpdateTask (tasks : List Task) (taskId : Nat)
    (responseData : Task) : List Task :=
  tasks.map (fun t => if t._id == taskId then responseData else t)

/-! ## Shared lemmas -/

theorem mem_getTasks (db : Db) (uid : Nat) (t : Task) :
    t ∈ getTasks db uid ↔ t ∈ db.tasks ∧ t.user = uid := by
  unfold getTasks
  rw [List.mem_insertionSort, List.mem_filter]
  simp

theorem createTask_ok {db : Db} {uid : Nat} {inp : TaskInput} {t : Task}
    {db' : Db} (h : createTask db uid inp = (Except.ok t, db')) :
    validateCreate inp = true ∧ t = mkTask db uid inp ∧
    db' = { tasks := db.tasks ++ [t], nextId := db.nextId + 1,
            now := db.now + 1 } := by
  by_cases hv : validateCreate inp = true
  · rw [createTask, if_pos hv] at h
    simp only [Prod.mk.injEq, Except.ok.injEq] at h
    exact ⟨hv, h.1.symm, by rw [← h.2, h.1]⟩
  · rw [createTask, if_neg hv] at h
    simp at h

theorem findOneAndUpdate_frame (uid tid : Nat) (inp : TaskInput) :
    ∀ (ts : List Task) (i : Nat) (t0 : Task),
      ts[i]? = some t0 → t0.user ≠ uid →
      (findOneAndUpdate ts uid tid inp).2[i]? = some t0 := by
  intro ts
  induction ts with
  | nil => intro i t0 h _; simp at h
  | cons t rest ih =>
    intro i t0 hget huser
    cases i with
    | zero =>
      simp only [List.getElem?_cons_zero, Option.some.injEq] at hget
      subst hget
      have hcond : (t._id == tid && t.user == uid) = false := by
        simp [huser]
      simp [findOneAndUpdate, hcond]
    | succ i =>
      simp only [List.getElem?_cons_succ] at hget
      by_cases hc : (t._id == tid && t.user == uid) = true
      · simp [findOneAndUpdate, hc, hget]
      · simp only [findOneAndUpdate, Bool.not_eq_true] at hc ⊢
        rw [if_neg (by simp [hc])]
        simpa using ih i t0 hget huser

theorem findOneAndDelete_frame (uid tid : Nat) :
    ∀ (ts : List Task) (t0 : Task), t0 ∈ ts → t0.user ≠ uid →
      t0 ∈ (findOneAndDelete ts uid tid).2 := by
  intro ts
  induction ts with
  | nil => intro t0 h _; simp at h
  | cons t rest ih =>
    intro t0 hmem huser
    by_cases hc : (t._id == tid && t.user == uid) = true
    · have htne : t0 ≠ t := by
        rintro rfl
        exact huser (by simpa using (Bool.and_elim_right hc))
      have : t0 ∈ rest := by
        rcases List.mem_cons.mp hmem with h | h
        · exact absurd h htne
        · exact h
      simp [findOneAndDelete, hc, this]
    · rcases List.mem_cons.mp hmem with h | h
      · subst h; simp [findOneAndDelete, hc]
      · simp [findOneAndDelete, hc, ih t0 h huser]

theorem updateTask_frame (db : Db) (uid tid : Nat) (inp : TaskInput)
    (i : Nat) (t0 : Task) (hget : db.tasks[i]? = some t0)
    (huser : t0.user ≠ uid) :
    (updateTask db uid tid inp).2.tasks[i]? = some t0 := by
  by_cases hv : validUpdate inp = true
  · cases h : findOneAndUpdate db.tasks uid tid inp with
    | mk r ts' =>
      cases r with
      | none => simp [updateTask, hv, h, hget]
      | some t =>
        have := findOneAndUpdate_frame uid tid inp db.tasks i t0 hget huser
        rw [h] at this
        simp [updateTask, hv, h, this]
  · simp [updateTask, hv, hget]

theorem deleteTask_frame (db : Db) (uid tid : Nat) (t0 : Task)
    (hmem : t0 ∈ db.tasks) (huser : t0.user ≠ uid) :
    t0 ∈ (deleteTask db uid tid).2.tasks := by
  cases h : findOneAndDelete db.tasks uid tid with
  | mk r ts' =>
    cases r with
    | none => simp [deleteTask, h, hmem]
    | some t =>
      have := findOneAndDelete_frame uid tid db.tasks t0 hmem huser
      rw [h] at this
      simp [deleteTask, h, this]

/-! ## Claims -/

/-- C1: for every user `userId`, `list(userId)` returns exactly the tasks
whose owner reference is `userId` — as a set, and even as a multiset
(permutation of the owner-filtered store) — ordered newest first
(descending by `createdAt`). -/
theorem C1_getTasks_owner_sorted (db : Db) (uid : Nat) :
    (∀ t, t ∈ getTasks db uid ↔ t ∈ db.tasks ∧ t.user = uid) ∧
    List.Sorted newerFirst (getTasks db uid) ∧
    List.Perm (getTasks db uid)
      (db.tasks.filter (fun t => t.user == uid)) := by
  refine ⟨fun t => mem_getTasks db uid t, ?_, ?_⟩
  · exact List.sorted_insertionSort newerFirst _
  · exact List.perm_insertionSort newerFirst _

/-- C2: a task created by `u` appears in `list(u)` and in no `list(v)` for
`v ≠ u` (no task listed for `v` carries the id of the new task, given that
the ids in the store are fresh below `nextId`); moreover update and delete
act only on tasks whose owner field equals the identity of the caller:
every task of
another owner survives both, unchanged and (for update) in place. -/
theorem C2_owner_scoping (db : Db) (u v : Nat) (inp : TaskInput)
    (t : Task) (db' : Db)
    (hok : createTask db u inp = (Except.ok t, db'))
    (hfresh : ∀ t0 ∈ db.tasks, t0._id ≠ db.nextId)
    (hvu : v ≠ u) :
    (t ∈ getTasks db' u) ∧
    (∀ t', t' ∈ getTasks db' v → t'._id ≠ t._id) ∧
    (∀ (db0 : Db) (uid tid : Nat) (inp0 : TaskInput) (i : Nat) (t0 : Task),
      db0.tasks[i]? = some t0 → t0.user ≠ uid →
      (updateTask db0 uid tid inp0).2.tasks[i]? = some t0 ∧
      t0 ∈ (deleteTask db0 uid tid).2.tasks) := by
  obtain ⟨hv, rfl, rfl⟩ := createTask_ok hok
  refine ⟨?_, ?_, ?_⟩
  · rw [mem_getTasks]
    exact ⟨by simp, rfl⟩
  · intro t' ht'
    rw [mem_getTasks] at ht'
    obtain ⟨hmem, huser⟩ := ht'
    simp only [List.mem_append, List.mem_singleton] at hmem
    rcases hmem with h | rfl
    · simpa [mkTask] using hfresh t' h
    · exact fun _ => hvu (by simpa [mkTask] using huser.symm)
  · intro db0 uid tid inp0 i t0 hget huser
    exact ⟨updateTask_frame db0 uid tid inp0 i t0 hget huser,
      deleteTask_frame db0 uid tid t0 (List.getElem?_mem hget) huser⟩

/-- Witness for C2 at a concrete input: user 1 creates a task on the empty
store; it shows up in the list of user 1. -/
theorem C2_owner_scoping_witness :
    (⟨0, "X", none, Status.todo, Priority.medium, none, 1, 0⟩ : Task) ∈
      getTasks ⟨[⟨0, "X", none, Status.todo, Priority.medium, none, 1, 0⟩],
        1, 1⟩ 1 :=
  (C2_owner_scoping ⟨[], 0, 0⟩ 1 2 ⟨some "X", none, none, none, none⟩
    ⟨0, "X", none, Status.todo, Priority.medium, none, 1, 0⟩
    ⟨[⟨0, "X", none, Status.todo, Priority.medium, none, 1, 0⟩], 1, 1⟩
    (by rfl) (by simp) (by decide)).1

theorem findOneAndUpdate_none (uid tid : Nat) (inp : TaskInput) :
    ∀ ts : List Task, (∀ t ∈ ts, ¬(t._id = tid ∧ t.user = uid)) →
      findOneAndUpdate ts uid tid inp = (none, ts) := by
  intro ts
  induction ts with
  | nil => intro _; rfl
  | cons t rest ih =>
    intro h
    have hc : (t._id == tid && t.user == uid) = false := by
      by_contra hc'
      rw [Bool.not_eq_false] at hc'
      exact h t (by simp) ⟨by simpa using Bool.and_elim_left hc',
        by simpa using Bool.and_elim_right hc'⟩
    simp [findOneAndUpdate, hc, ih (fun t' ht' => h t' (by simp [ht']))]

theorem findOneAndDelete_none (uid tid : Nat) :
    ∀ ts : List Task, (∀ t ∈ ts, ¬(t._id = tid ∧ t.user = uid)) →
      findOneAndDelete ts uid tid = (none, ts) := by
  intro ts
  induction ts with
  | nil => intro _; rfl
  | cons t rest ih =>
    intro h
    have hc : (t._id == tid && t.user == uid) = false := by
      by_contra hc'
      rw [Bool.not_eq_false] at hc'
      exact h t (by simp) ⟨by simpa using Bool.and_elim_left hc',
        by simpa using Bool.and_elim_right hc'⟩
    simp [findOneAndDelete, hc, ih (fun t' ht' => h t' (by simp [ht']))]

theorem notFound_unchanged (db : Db) (uid tid : Nat) (inp : TaskInput)
    (h : ∀ t ∈ db.tasks, ¬(t._id = tid ∧ t.user = uid)) :
    (validUpdate inp = true →
      updateTask db uid tid inp = (UpdateResult.notFound, db)) ∧
    (validUpdate inp = false →
      updateTask db uid tid inp = (UpdateResult.validationError, db)) ∧
    deleteTask db uid tid = (none, db) := by
  refine ⟨?_, ?_, ?_⟩
  · intro hv
    simp [updateTask, hv, findOneAndUpdate_none uid tid inp db.tasks h]
  · intro hv
    simp [updateTask, hv]
  · simp [deleteTask, findOneAndDelete_none uid tid db.tasks h]

/-- C3 counterexample: the claim asserts NotFoundError for every fields
map when the caller owns no matching task, but the update validators run
before the query: at this concrete input — empty store, so nothing
matches, and a 101-character title — the update fails with
ValidationError, not NotFoundError. -/
theorem C3_counterexample :
    (updateTask ⟨[], 0, 0⟩ 1 0
      ⟨some (String.mk (List.replicate 101 'a')), none, none, none,
        none⟩).1 = UpdateResult.validationError ∧
    (updateTask ⟨[], 0, 0⟩ 1 0
      ⟨some (String.mk (List.replicate 101 'a')), none, none, none,
        none⟩).1 ≠ UpdateResult.notFound := by
  decide

/-- C3 (amended): when no task with id `taskId` is owned by the caller —
including when the task exists but belongs to a different user — delete
answers NotFoundError, and update answers NotFoundError provided the
fields pass the update validators (an invalid body is rejected as
ValidationError before the query); in every case the store is
unchanged. -/
theorem C3_amended_notFound (db : Db) (uid tid : Nat) (inp : TaskInput)
    (h : ∀ t ∈ db.tasks, ¬(t._id = tid ∧ t.user = uid)) :
    (validUpdate inp = true →
      updateTask db uid tid inp = (UpdateResult.notFound, db)) ∧
    (validUpdate inp = false →
      updateTask db uid tid inp = (UpdateResult.validationError, db)) ∧
    deleteTask db uid tid = (none, db) ∧
    (updateTask db uid tid inp).2 = db := by
  obtain ⟨h1, h2, h3⟩ := notFound_unchanged db uid tid inp h
  refine ⟨h1, h2, h3, ?_⟩
  by_cases hv : validUpdate inp = true
  · rw [h1 hv]
  · rw [h2 (by simpa using hv)]

/-- Witness for C3 (amended) at a concrete input: user 1 sends a valid
(empty) body at the task with id 0 owned by user 2; update and delete
both answer not-found and the store keeps the foreign task. -/
theorem C3_amended_notFound_witness :
    updateTask ⟨[⟨0, "a", none, Status.todo, Priority.low, none, 2, 0⟩],
        1, 1⟩ 1 0 ⟨none, none, none, none, none⟩ =
      (UpdateResult.notFound,
       ⟨[⟨0, "a", none, Status.todo, Priority.low, none, 2, 0⟩], 1, 1⟩) ∧
    deleteTask ⟨[⟨0, "a", none, Status.todo, Priority.low, none, 2, 0⟩],
        1, 1⟩ 1 0 =
      (none,
       ⟨[⟨0, "a", none, Status.todo, Priority.low, none, 2, 0⟩], 1, 1⟩) :=
  ⟨(C3_amended_notFound
      ⟨[⟨0, "a", none, Status.todo, Priority.low, none, 2, 0⟩], 1, 1⟩ 1 0
      ⟨none, none, none, none, none⟩ (by decide)).1 rfl,
   (C3_amended_notFound
      ⟨[⟨0, "a", none, Status.todo, Priority.low, none, 2, 0⟩], 1, 1⟩ 1 0
      ⟨none, none, none, none, none⟩ (by decide)).2.2.1⟩

/-- C4: after a successful create with title `"X"` and no status field,
the list of the creator contains a task with title `"X"` and status `todo`. -/
theorem C4_create_list_roundtrip (db : Db) (u : Nat) (inp : TaskInput)
    (t : Task) (db' : Db)
    (htitle : inp.title = some "X") (hstatus : inp.status = none)
    (hok : createTask db u inp = (Except.ok t, db')) :
    t ∈ getTasks db' u ∧ t.title = "X" ∧ t.status = Status.todo := by
  obtain ⟨hv, rfl, rfl⟩ := createTask_ok hok
  refine ⟨?_, ?_, ?_⟩
  · rw [mem_getTasks]
    exact ⟨by simp, rfl⟩
  · simp only [mkTask, htitle, Option.getD_some]
    decide
  · simp [mkTask, hstatus]

/-- Witness for C4 at a concrete input: user 1 creates `title = "X"` on
the empty store. -/
theorem C4_create_list_roundtrip_witness :
    (⟨0, "X", none, Status.todo, Priority.medium, none, 1, 0⟩ : Task) ∈
      getTasks ⟨[⟨0, "X", none, Status.todo, Priority.medium, none, 1, 0⟩],
        1, 1⟩ 1 ∧
    (⟨0, "X", none, Status.todo, Priority.medium, none, 1, 0⟩ : Task).title
        = "X" ∧
    (⟨0, "X", none, Status.todo, Priority.medium, none, 1, 0⟩ : Task).status
        = Status.todo :=
  C4_create_list_roundtrip ⟨[], 0, 0⟩ 1 ⟨some "X", none, none, none, none⟩
    ⟨0, "X", none, Status.todo, Priority.medium, none, 1, 0⟩
    ⟨[⟨0, "X", none, Status.todo, Priority.medium, none, 1, 0⟩], 1, 1⟩
    rfl rfl (by rfl)

theorem validateCreate_false_iff (inp : TaskInput) :
    validateCreate inp = false ↔
      inp.title = none ∨
      (∃ s, inp.title = some s ∧
        ((trim s).length = 0 ∨ 100 < (trim s).length)) ∨
      (∃ d, inp.description = some d ∧ 500 < (trim d).length) := by
  cases ht : inp.title with
  | none => simp [validateCreate, validTitle, ht]
  | some s =>
    cases hd : inp.description with
    | none =>
      simp [validateCreate, validTitle, validDescription, ht, hd]
      omega
    | some d =>
      simp [validateCreate, validTitle, validDescription, ht, hd]
      omega

/-- C5 counterexample: a present-but-empty title is rejected by the
required validator (checkRequired on a String path demands nonzero
length), yet it is neither missing nor over any length bound, so create
does not fail exactly on the conditions the claim lists: at this concrete
input create fails although the claim says it persists. -/
theorem C5_counterexample :
    (createTask ⟨[], 0, 0⟩ 1 ⟨some "", none, none, none, none⟩).1 =
        Except.error () ∧
    (some "" : Option String) ≠ none ∧
    (trim "").length ≤ 100 :=
  ⟨rfl, by decide, by decide⟩

/-- C5 (amended): create fails — leaving the store untouched — exactly
when the body violates the schema: title missing, trimmed title empty or
longer than 100 characters, or trimmed description longer than 500
characters; on any other body it persists the new task and returns it. -/
theorem C5_amended_create_validation (db : Db) (uid : Nat)
    (inp : TaskInput) :
    ((createTask db uid inp).1 = Except.error () ↔
      inp.title = none ∨
      (∃ s, inp.title = some s ∧
        ((trim s).length = 0 ∨ 100 < (trim s).length)) ∨
      (∃ d, inp.description = some d ∧ 500 < (trim d).length)) ∧
    ((createTask db uid inp).1 = Except.error () →
      (createTask db uid inp).2 = db) ∧
    (∀ t db', createTask db uid inp = (Except.ok t, db') →
      t ∈ db'.tasks) := by
  by_cases hv : validateCreate inp = true
  · refine ⟨?_, ?_, ?_⟩
    · rw [← validateCreate_false_iff]
      simp [createTask, hv]
    · simp [createTask, hv]
    · intro t db' h
      obtain ⟨-, rfl, rfl⟩ := createTask_ok h
      simp
  · have hv' : validateCreate inp = false := by
      simpa using hv
    refine ⟨?_, ?_, ?_⟩
    · rw [← validateCreate_false_iff]
      simp [createTask, hv', hv]
    · intro _
      simp [createTask, hv]
    · intro t db' h
      obtain ⟨hc, -, -⟩ := createTask_ok h
      exact absurd hc hv

/-- Witness for C5 (amended) at a concrete input: a body without a title
is rejected and the store is unchanged. -/
theorem C5_amended_create_validation_witness :
    (createTask ⟨[], 0, 0⟩ 1 ⟨none, none, none, none, none⟩).1 =
        Except.error () ∧
    (createTask ⟨[], 0, 0⟩ 1 ⟨none, none, none, none, none⟩).2 =
        ⟨[], 0, 0⟩ :=
  ⟨(C5_amended_create_validation ⟨[], 0, 0⟩ 1
      ⟨none, none, none, none, none⟩).1.mpr (Or.inl rfl),
   (C5_amended_create_validation ⟨[], 0, 0⟩ 1
      ⟨none, none, none, none, none⟩).2.1
      ((C5_amended_create_validation ⟨[], 0, 0⟩ 1
          ⟨none, none, none, none, none⟩).1.mpr (Or.inl rfl))⟩

/-- C6: a successful create without a status field stores status `todo`;
without a priority field it stores priority `medium`; and status/priority
always range over their three declared enum values. -/
theorem C6_defaults (db : Db) (uid : Nat) (inp : TaskInput) (t : Task)
    (db' : Db) :
    (inp.status = none → createTask db uid inp = (Except.ok t, db') →
      t.status = Status.todo) ∧
    (inp.priority = none → createTask db uid inp = (Except.ok t, db') →
      t.priority = Priority.medium) ∧
    (∀ s : Status,
      s = Status.todo ∨ s = Status.inProgress ∨ s = Status.completed) ∧
    (∀ p : Priority,
      p = Priority.low ∨ p = Priority.medium ∨ p = Priority.high) := by
  refine ⟨?_, ?_, ?_, ?_⟩
  · intro hs hok
    obtain ⟨-, rfl, -⟩ := createTask_ok hok
    simp [mkTask, hs]
  · intro hp hok
    obtain ⟨-, rfl, -⟩ := createTask_ok hok
    simp [mkTask, hp]
  · intro s
    cases s <;> simp
  · intro p
    cases p <;> simp

/-- Witness for C6 at a concrete input: creating with status and priority
absent stores `todo` / `medium`. -/
theorem C6_defaults_witness :
    (⟨0, "X", none, Status.todo, Priority.medium, none, 1, 0⟩ : Task).status
        = Status.todo ∧
    (⟨0, "X", none, Status.todo, Priority.medium, none, 1, 0⟩ :
        Task).priority = Priority.medium :=
  ⟨(C6_defaults ⟨[], 0, 0⟩ 1 ⟨some "X", none, none, none, none⟩
      ⟨0, "X", none, Status.todo, Priority.medium, none, 1, 0⟩
      ⟨[⟨0, "X", none, Status.todo, Priority.medium, none, 1, 0⟩], 1, 1⟩).1
      rfl (by rfl),
   (C6_defaults ⟨[], 0, 0⟩ 1 ⟨some "X", none, none, none, none⟩
      ⟨0, "X", none, Status.todo, Priority.medium, none, 1, 0⟩
      ⟨[⟨0, "X", none, Status.todo, Priority.medium, none, 1, 0⟩], 1, 1⟩).2.1
      rfl (by rfl)⟩

/-- C7 counterexample: the claim says a non-validation server failure
during any operation yields status 500, but a rejected store call inside
`updateTask` lands in its catch-all `res.status(400)`: at this concrete
request the update handler answers 400, not 500 (the same holds for
`createTask`). -/
theorem C7_counterexample :
    updateTaskStatus ⟨[], 0, 0⟩ 1 0 ⟨none, none, none, none, none⟩ true
        = 400 ∧
    updateTaskStatus ⟨[], 0, 0⟩ 1 0 ⟨none, none, none, none, none⟩ true
        ≠ 500 := by
  decide

/-- C7 (amended): every handler response is one of 200/201/400/404/500,
and the error statuses arise as the code maps them: the auth gate
(modelled from the spec) answers 401 on AuthError; a missing owned task
answers 404 on delete, and on update when the body passes the update
validators — an invalid update body is rejected 400 before any match; a
server failure during list or delete answers 500; and any failure during
create or update — validation or non-validation server failure alike —
answers 400. -/
theorem C7_amended_status_mapping (db : Db) (uid tid : Nat)
    (inp : TaskInput) (fault : Bool) (secret now : Nat)
    (tk : Option Token) (hs : Nat) :
    (getTasksStatus true = 500 ∧
     deleteTaskStatus db uid tid true = 500 ∧
     createTaskStatus db uid inp true = 400 ∧
     updateTaskStatus db uid tid inp true = 400) ∧
    ((∀ t ∈ db.tasks, ¬(t._id = tid ∧ t.user = uid)) →
      validUpdate inp = true →
      updateTaskStatus db uid tid inp false = 404) ∧
    ((∀ t ∈ db.tasks, ¬(t._id = tid ∧ t.user = uid)) →
      deleteTaskStatus db uid tid false = 404) ∧
    (validUpdate inp = false →
      updateTaskStatus db uid tid inp false = 400) ∧
    (validateCreate inp = false → createTaskStatus db uid inp false = 400) ∧
    (validateCreate inp = true → createTaskStatus db uid inp false = 201) ∧
    (verify secret now tk = Except.error () →
      verifyStatus secret now tk hs = 401) ∧
    (getTasksStatus fault = 200 ∨ getTasksStatus fault = 500) ∧
    (createTaskStatus db uid inp fault = 201 ∨
     createTaskStatus db uid inp fault = 400) ∧
    (updateTaskStatus db uid tid inp fault = 200 ∨
     updateTaskStatus db uid tid inp fault = 400 ∨
     updateTaskStatus db uid tid inp fault = 404) ∧
    (deleteTaskStatus db uid tid fault = 200 ∨
     deleteTaskStatus db uid tid fault = 404 ∨
     deleteTaskStatus db uid tid fault = 500) := by
  refine ⟨⟨rfl, rfl, rfl, rfl⟩, ?_, ?_, ?_, ?_, ?_, ?_, ?_, ?_, ?_, ?_⟩
  · intro h hv
    obtain ⟨hu, -, -⟩ := notFound_unchanged db uid tid inp h
    simp [updateTaskStatus, hu hv]
  · intro h
    obtain ⟨-, -, hd⟩ := notFound_unchanged db uid tid inp h
    simp [deleteTaskStatus, hd]
  · intro hv
    simp [updateTaskStatus, updateTask, hv]
  · intro h
    simp [createTaskStatus, createTask, h]
  · intro h
    simp [createTaskStatus, createTask, h]
  · intro h
    simp [verifyStatus, h]
  · cases fault <;> simp [getTasksStatus]
  · cases fault
    · cases h : (createTask db uid inp).1 <;> simp [createTaskStatus, h]
    · simp [createTaskStatus]
  · cases fault
    · cases h : (updateTask db uid tid inp).1 <;>
        simp [updateTaskStatus, h]
    · simp [updateTaskStatus]
  · cases fault
    · cases h : (deleteTask db uid tid).1 <;> simp [deleteTaskStatus, h]
    · simp [deleteTaskStatus]

/-- Witness for C7 (amended) at a concrete input: a missing token is
answered 401; a valid-body update aimed at the task of another user is
answered 404. -/
theorem C7_amended_status_mapping_witness :
    verifyStatus 0 0 none 200 = 401 ∧
    updateTaskStatus ⟨[⟨0, "a", none, Status.todo, Priority.low, none, 2,
        0⟩], 1, 1⟩ 1 0 ⟨none, none, none, none, none⟩ false = 404 :=
  ⟨(C7_amended_status_mapping ⟨[], 0, 0⟩ 1 0 ⟨none, none, none, none,
      none⟩ false 0 0 none 200).2.2.2.2.2.2.1 rfl,
   (C7_amended_status_mapping
      ⟨[⟨0, "a", none, Status.todo, Priority.low, none, 2, 0⟩], 1, 1⟩ 1 0
      ⟨none, none, none, none, none⟩ false 0 0 none 200).2.1
      (by decide) rfl⟩

theorem findOneAndUpdate_found (uid tid : Nat) (inp : TaskInput) :
    ∀ (ts : List Task) (t : Task), t ∈ ts → t._id = tid → t.user = uid →
      (ts.map Task._id).Nodup →
      ∃ l1 l2, ts = l1 ++ t :: l2 ∧
        (∀ t' ∈ l1, t'._id ≠ tid) ∧
        findOneAndUpdate ts uid tid inp =
          (some (applyUpdate t inp), l1 ++ applyUpdate t inp :: l2) := by
  intro ts
  induction ts with
  | nil => intro t h; simp at h
  | cons x rest ih =>
    intro t hmem hid huser hnodup
    rw [List.map_cons, List.nodup_cons] at hnodup
    by_cases hx : x._id = tid
    · have hxt : x = t := by
        rcases List.mem_cons.mp hmem with h | h
        · exact h.symm
        · exfalso
          apply hnodup.1
          rw [hx, ← hid]
          exact List.mem_map_of_mem Task._id h
      subst hxt
      refine ⟨[], rest, rfl, by simp, ?_⟩
      have hc : (x._id == tid && x.user == uid) = true := by
        simp [hx, huser]
      simp [findOneAndUpdate, hc]
    · have hterest : t ∈ rest := by
        rcases List.mem_cons.mp hmem with h | h
        · exact absurd (h ▸ hid) hx
        · exact h
      obtain ⟨l1, l2, heq, hl1, hfu⟩ :=
        ih t hterest hid huser hnodup.2
      refine ⟨x :: l1, l2, by rw [List.cons_append, heq], ?_, ?_⟩
      · intro t' ht'
        rcases List.mem_cons.mp ht' with h | h
        · exact h ▸ hx
        · exact hl1 t' h
      · have hc : (x._id == tid && x.user == uid) = false := by
          simp [hx]
        simp [findOneAndUpdate, hc, hfu]

/-- C8: updating an owned task applies exactly the supplied fields and no
others, keeps the identity, owner and creation time of the task, rewrites
only the slot of that task in the store — the tasks before and after it are
untouched and in place — and returns the updated task. -/
theorem C8_update_supplied_fields_only (db : Db) (uid tid : Nat) (inp : TaskInput)
    (t : Task) (hmem : t ∈ db.tasks) (hid : t._id = tid)
    (huser : t.user = uid) (hnodup : (db.tasks.map Task._id).Nodup)
    (hvalid : validUpdate inp = true) :
    ∃ l1 l2, db.tasks = l1 ++ t :: l2 ∧
      updateTask db uid tid inp =
        (UpdateResult.ok (applyUpdate t inp),
         { db with tasks := l1 ++ applyUpdate t inp :: l2 }) ∧
      (inp.title = none → (applyUpdate t inp).title = t.title) ∧
      (∀ s, inp.title = some s → (applyUpdate t inp).title = trim s) ∧
      (inp.description = none →
        (applyUpdate t inp).description = t.description) ∧
      (∀ s, inp.description = some s →
        (applyUpdate t inp).description = some (trim s)) ∧
      (inp.status = none → (applyUpdate t inp).status = t.status) ∧
      (∀ s, inp.status = some s → (applyUpdate t inp).status = s) ∧
      (inp.priority = none → (applyUpdate t inp).priority = t.priority) ∧
      (∀ p, inp.priority = some p → (applyUpdate t inp).priority = p) ∧
      (inp.dueDate = none → (applyUpdate t inp).dueDate = t.dueDate) ∧
      (∀ d, inp.dueDate = some d → (applyUpdate t inp).dueDate = some d) ∧
      (applyUpdate t inp)._id = t._id ∧
      (applyUpdate t inp).user = t.user ∧
      (applyUpdate t inp).createdAt = t.createdAt := by
  obtain ⟨l1, l2, heq, -, hfu⟩ :=
    findOneAndUpdate_found uid tid inp db.tasks t hmem hid huser hnodup
  refine ⟨l1, l2, heq, ?_, ?_, ?_, ?_, ?_, ?_, ?_, ?_, ?_, ?_, ?_,
    by simp [applyUpdate], by simp [applyUpdate], by simp [applyUpdate]⟩
  · simp [updateTask, hfu, hvalid]
  · intro h; simp [applyUpdate, h]
  · intro s h; simp [applyUpdate, h]
  · intro h; simp [applyUpdate, h]
  · intro s h; simp [applyUpdate, h]
  · intro h; simp [applyUpdate, h]
  · intro s h; simp [applyUpdate, h]
  · intro h; simp [applyUpdate, h]
  · intro p h; simp [applyUpdate, h]
  · intro h; simp [applyUpdate, h]
  · intro d h; simp [applyUpdate, h]

/-- Witness for C8 at a concrete input: user 1 sets the status of their
task 0 to `completed`; only that field changes. -/
theorem C8_update_supplied_fields_only_witness :
    (updateTask ⟨[⟨0, "a", none, Status.todo, Priority.low, none, 1, 0⟩],
        1, 1⟩ 1 0 ⟨none, none, some Status.completed, none, none⟩).1 =
      UpdateResult.ok
        ⟨0, "a", none, Status.completed, Priority.low, none, 1, 0⟩ := by
  obtain ⟨l1, l2, -, hupd, -⟩ :=
    C8_update_supplied_fields_only
      ⟨[⟨0, "a", none, Status.todo, Priority.low, none, 1, 0⟩], 1, 1⟩ 1 0
      ⟨none, none, some Status.completed, none, none⟩
      ⟨0, "a", none, Status.todo, Priority.low, none, 1, 0⟩
      (by simp) rfl rfl (by simp) (by decide)
  rw [hupd]
  rfl

/-- C9: if registering an email succeeds, registering the same email again
fails — with any password — and the credential store then holds exactly
one record for that email. -/
theorem C9_register_unique (udb : UserDb) (e p1 p2 : String) (tok : Nat)
    (udb' : UserDb) (hok : register udb e p1 = Except.ok (tok, udb')) :
    (∀ r, register udb' e p2 ≠ Except.ok r) ∧
    (udb'.users.filter (fun u => u.email == e)).length = 1 := by
  have ha : udb.users.any (fun u => u.email == e) = false := by
    by_contra h
    rw [Bool.not_eq_false] at h
    rw [register] at hok
    simp [h] at hok
  rw [register, if_neg (by simp [ha])] at hok
  simp only [Except.ok.injEq, Prod.mk.injEq] at hok
  obtain ⟨-, rfl⟩ := hok
  constructor
  · intro r hr
    rw [register] at hr
    simp [List.any_append] at hr
  · have hfil : udb.users.filter (fun u => u.email == e) = [] := by
      rw [List.filter_eq_nil_iff]
      intro u hu
      have := List.any_eq_false.mp ha u hu
      simpa using this
    simp [List.filter_append, hfil]

/-- Witness for C9 at a concrete input: after registering `a@b`, a second
registration of `a@b` fails. -/
theorem C9_register_unique_witness :
    register ⟨[⟨0, "a@b", hashPassword "s" "p1"⟩], 1, "s"⟩ "a@b" "p2" =
      Except.error () := by
  have h := (C9_register_unique ⟨[], 0, "s"⟩ "a@b" "p1" "p2" 0
    ⟨[⟨0, "a@b", hashPassword "s" "p1"⟩], 1, "s"⟩ (by rfl)).1
  cases hreg : register ⟨[⟨0, "a@b", hashPassword "s" "p1"⟩], 1, "s"⟩
      "a@b" "p2" with
  | error e => cases e; rfl
  | ok r => exact absurd hreg (h r)

/-- C10: in the client, a successful create prepends the response to the
task list — old tasks keep their positions and contents, and newest-first
order survives when the new task is newest — and a successful update
rewrites exactly the slots whose `_id` matches, keeps every other slot,
keeps the length, and preserves newest-first order when the server
response keeps the creation time of the task. -/
theorem C10_client_list_invariants (tasks : List Task) (nt : Task)
    (tid : Nat) (resp : Task) :
    (handleCreateTask tasks nt = nt :: tasks) ∧
    (List.Sorted newerFirst tasks →
      (∀ t ∈ tasks, t.createdAt ≤ nt.createdAt) →
      List.Sorted newerFirst (handleCreateTask tasks nt)) ∧
    ((handleUpdateTask tasks tid resp).length = tasks.length) ∧
    (∀ (i : Nat) (t : Task), tasks[i]? = some t → t._id ≠ tid →
      (handleUpdateTask tasks tid resp)[i]? = some t) ∧
    (∀ (i : Nat) (t : Task), tasks[i]? = some t → t._id = tid →
      (handleUpdateTask tasks tid resp)[i]? = some resp) ∧
    (List.Sorted newerFirst tasks →
      (∀ t ∈ tasks, t._id = tid → resp.createdAt = t.createdAt) →
      List.Sorted newerFirst (handleUpdateTask tasks tid resp)) := by
  refine ⟨rfl, ?_, ?_, ?_, ?_, ?_⟩
  · intro hsorted hle
    rw [handleCreateTask, List.sorted_cons]
    exact ⟨fun b hb => hle b hb, hsorted⟩
  · simp [handleUpdateTask]
  · intro i t hget hne
    rw [handleUpdateTask, List.getElem?_map, hget]
    simp [hne]
  · intro i t hget heq
    rw [handleUpdateTask, List.getElem?_map, hget]
    simp [heq]
  · intro hsorted hkeep
    have key : ∀ c ∈ tasks,
        (if (c._id == tid) = true then resp else c).createdAt =
          c.createdAt := by
      intro c hc
      by_cases hic : c._id = tid
      · rw [if_pos (by simp [hic])]
        exact hkeep c hc hic
      · rw [if_neg (by simp [hic])]
    rw [handleUpdateTask, List.Sorted, List.pairwise_map]
    refine (List.Pairwise.and_mem.mp hsorted).imp ?_
    intro a b h
    obtain ⟨ha, hb, hab⟩ := h
    show newerFirst (if (a._id == tid) = true then resp else a)
      (if (b._id == tid) = true then resp else b)
    unfold newerFirst at hab ⊢
    rw [key a ha, key b hb]
    exact hab

/-- Witness for C10 at a concrete input: prepending the newest task to a
one-task list keeps the list sorted newest first. -/
theorem C10_client_list_invariants_witness :
    List.Sorted newerFirst
      (handleCreateTask
        [⟨0, "a", none, Status.todo, Priority.low, none, 1, 0⟩]
        ⟨1, "b", none, Status.todo, Priority.low, none, 1, 5⟩) :=
  (C10_client_list_invariants
    [⟨0, "a", none, Status.todo, Priority.low, none, 1, 0⟩]
    ⟨1, "b", none, Status.todo, Priority.low, none, 1, 5⟩ 0
    ⟨0, "a", none, Status.todo, Priority.low, none, 1, 0⟩).2.1
    (by simp) (by decide)

end TaskApp
